import Mathlib

/-!
Verification development for the decoding core of the `openlr-dereferencer`
repository.  The Python sources under `openlr_dereferencer/decoding/` and
`openlr_dereferencer/observer/` are embedded shallowly: pure functions become
Lean functions, floating-point meter/score values are modelled by exact
rationals, exceptions become `Except`, and the NamedTuple/dataclass value
types become structures.

The repository modules `decoding/routes.py` (the `Route` and `PointOnLine`
value types), `decoding/error.py` (`LRDecodeError`) and
`decoding/candidate.py` (`Candidate`) are not part of the source snapshot;
their definitions below are modelled from the specification (section 3
"DATA MODEL" and section 4) and are marked as such.  The external geodesy
and polyline collaborators (shapely, `maps/wgs84.py`), which the spec
declares out of scope, enter as function parameters together with their
contracts from spec section 4.1.
-/

/-- A WGS-84 coordinate: (longitude, latitude) in decimal degrees
(spec section 3). -/
structure Coordinates where
  lon : Rat
  lat : Rat
deriving DecidableEq

/-- A directed road segment of the target map (spec section 3 "Segment
(Line)"): identifier, polyline geometry and its length in meters.  The
start/end nodes, frc and fow attributes play no role in the claims below
and are omitted. -/
structure Line where
  line_id : Nat
  length : Rat
  geometry : List Coordinates
deriving DecidableEq

/-- Modelled from the spec: `decoding/routes.py` is missing from the source
snapshot.  A `PointOnLine` is a segment together with a fraction in [0, 1]
(spec section 3); `relative_offset` is the accessor name used by
`line_location.py`. -/
structure PointOnLine where
  line : Line
  relative_offset : Rat
deriving DecidableEq

/-- Modelled from the spec: the constructor `PointOnLine.from_abs_offset`
used by `remove_offsets` turns an absolute offset in meters into the
fraction, per the spec invariant "absolute offset = fraction × length". -/
def PointOnLine.from_abs_offset (line : Line) (meters : Rat) : PointOnLine :=
  ⟨line, meters / line.length⟩

/-- Modelled from the spec: splitting the line at the point yields the
partial geometries before and after the point; a side is `none` when the
point sits at the corresponding extremity of the line.  The interior cut is
performed by the external polyline-substring collaborator `cut`. -/
def PointOnLine.split (cut : List Coordinates → Rat → List Coordinates × List Coordinates)
    (p : PointOnLine) : Option (List Coordinates) × Option (List Coordinates) :=
  if p.relative_offset = 0 then
    (none, some p.line.geometry)
  else if p.relative_offset = 1 then
    (some p.line.geometry, none)
  else
    (some (cut p.line.geometry p.relative_offset).1,
     some (cut p.line.geometry p.relative_offset).2)

/-- Modelled from the spec: a `Route` is a start point-on-line, the interior
segments in between (possibly empty) and an end point-on-line (spec
section 3 "Route"). -/
structure Route where
  start : PointOnLine
  interior : List Line
  «end» : PointOnLine
deriving DecidableEq

/-- Modelled from the spec: the segments making up the route.  A route whose
start and end lie on the same segment consists of that single segment;
otherwise the start segment is the first one entered and the end segment the
last (spec section 3 "Route" invariants). -/
def Route.lines (r : Route) : List Line :=
  if r.interior = [] ∧ r.start.line.line_id = r.«end».line.line_id then
    [r.start.line]
  else
    r.start.line :: (r.interior ++ [r.«end».line])

/-- Modelled from the spec: route length in meters, with the single-segment
special case `length = (end.fraction − start.fraction) × start.segment.length`
(spec section 3 "Route" invariants). -/
def Route.length (r : Route) : Rat :=
  if r.interior = [] ∧ r.start.line.line_id = r.«end».line.line_id then
    (r.«end».relative_offset - r.start.relative_offset) * r.start.line.length
  else
    (1 - r.start.relative_offset) * r.start.line.length
      + (r.interior.map Line.length).sum
      + r.«end».relative_offset * r.«end».line.length

/-- Modelled from the spec: `absolute-start-offset = start.fraction ×
start.segment.length` (spec section 3 "Route" invariants). -/
def Route.absolute_start_offset (r : Route) : Rat :=
  r.start.relative_offset * r.start.line.length

/-- Modelled from the spec: the end offset is symmetric — the route ends
this many meters before the end of its last segment. -/
def Route.absolute_end_offset (r : Route) : Rat :=
  (1 - r.«end».relative_offset) * r.«end».line.length

/-- Well-formedness of a route, from the spec's Route and Segment
invariants: positive segment lengths, fractions in [0, 1], segment
identifiers determine segments, and no two consecutive segments are the
same road. -/
def Route.WF (r : Route) : Prop :=
  (∀ l ∈ r.lines, 0 < l.length) ∧
  0 ≤ r.start.relative_offset ∧ r.start.relative_offset ≤ 1 ∧
  0 ≤ r.«end».relative_offset ∧ r.«end».relative_offset ≤ 1 ∧
  (r.start.line.line_id = r.«end».line.line_id → r.start.line = r.«end».line) ∧
  List.Chain' (fun a b => a.line_id ≠ b.line_id) r.lines

instance (r : Route) : Decidable r.WF :=
  inferInstanceAs (Decidable (
    (∀ l ∈ r.lines, 0 < l.length) ∧
    0 ≤ r.start.relative_offset ∧ r.start.relative_offset ≤ 1 ∧
    0 ≤ r.«end».relative_offset ∧ r.«end».relative_offset ≤ 1 ∧
    (r.start.line.line_id = r.«end».line.line_id → r.start.line = r.«end».line) ∧
    List.Chain' (fun a b : Line => a.line_id ≠ b.line_id) r.lines))

/-- Modelled from the spec: `decoding/error.py` is missing from the source
snapshot; `LRDecodeError` is the decode error carrying a message (spec
section 6 "Error taxonomy"). -/
structure LRDecodeError where
  message : String
deriving DecidableEq

/-- The loop `while remaining >= lines[0].length: remaining -= lines.pop(0).length;
if not lines: raise LRDecodeError(...)` from `remove_offsets`
(`decoding/path_math.py`): consume whole segments from the front while the
remaining offset covers them. -/
def consume_front (remaining : Rat) : List Line → Except LRDecodeError (Rat × List Line)
  | [] => .error ⟨"Offset is bigger than line location path"⟩
  | l :: rest =>
    if l.length ≤ remaining then
      consume_front (remaining - l.length) rest
    else
      .ok (remaining, l :: rest)

/-- `remove_offsets` from `decoding/path_math.py`: remove start and end
offsets, measured in meters, from a route and return the result.  The
negative-offset loop pops from the back, modelled by consuming the reversed
list. -/
def remove_offsets (path : Route) (p_off n_off : Rat) : Except LRDecodeError Route := do
  let lines := path.lines
  let (remaining_poff, lines) ← consume_front (p_off + path.absolute_start_offset) lines
  let (remaining_noff, rev_lines) ← consume_front (n_off + path.absolute_end_offset) lines.reverse
  let lines := rev_lines.reverse
  match lines with
  | [] => .error ⟨"unreachable: consume_front only succeeds on a nonempty list"⟩
  | start_line :: rest =>
    match rest.getLast? with
    | none =>
      .ok ⟨PointOnLine.from_abs_offset start_line remaining_poff, [],
           PointOnLine.from_abs_offset start_line (start_line.length - remaining_noff)⟩
    | some end_line =>
      .ok ⟨PointOnLine.from_abs_offset start_line remaining_poff, rest.dropLast,
           PointOnLine.from_abs_offset end_line (end_line.length - remaining_noff)⟩

/-- The body of the inner loop of `get_lines` (`decoding/line_location.py`):
if the last collected line has the same id as the incoming one, pop it, then
append the incoming line. -/
def get_lines_step (result : List Line) (line : Line) : List Line :=
  match result.getLast? with
  | some prev =>
    if prev.line_id = line.line_id then result.dropLast ++ [line]
    else result ++ [line]
  | none => result ++ [line]

/-- `get_lines` from `decoding/line_location.py`: convert a line location
path (a list of consecutive partial routes) to its sequence of line
elements, deduplicating equal-id lines at the part boundaries. -/
def get_lines (line_location_path : List Route) : List Line :=
  line_location_path.foldl (fun result part => part.lines.foldl get_lines_step result) []

/-- `combine_routes` from `decoding/line_location.py`: build the whole
location-reference path from consecutive partial routes.  Indexing an empty
path is a caller error, modelled by `none`.  The `equal_area` flag merely
selects the fraction interpretation of the constructed points-on-line
(parametric vs arc-length); it has no effect on the length bookkeeping
modelled here. -/
def combine_routes (line_location_path : List Route) (equal_area : Bool := false) :
    Option Route :=
  match line_location_path with
  | [] => none
  | p0 :: ps =>
    match get_lines (p0 :: ps) with
    | [] => none
    | l0 :: rest =>
      let start := PointOnLine.mk l0 p0.start.relative_offset
      let last_part := ps.getLastD p0
      some (match rest.getLast? with
        | some le =>
          Route.mk start rest.dropLast (PointOnLine.mk le last_part.«end».relative_offset)
        | none => Route.mk start [] (PointOnLine.mk l0 last_part.«end».relative_offset))

/-- The `LineLocation` class of `decoding/line_location.py`: a dereferenced
line location wrapping the combined route. -/
structure LineLocation where
  internal_route : Route
deriving DecidableEq

/-- `LineLocation.lines`: the sequence of lines involved in this location. -/
def LineLocation.lines (l : LineLocation) : List Line :=
  l.internal_route.lines

/-- `LineLocation.p_off`: the location starts this many meters into the
first line. -/
def LineLocation.p_off (l : LineLocation) : Rat :=
  l.internal_route.absolute_start_offset

/-- `LineLocation.n_off`: the location ends this many meters before the end
of the last line. -/
def LineLocation.n_off (l : LineLocation) : Rat :=
  l.internal_route.absolute_end_offset

/-- The part of the external `openlr` `LineLocationReference` type that the
decoder reads: the anchor points and the two relative offsets (fractions). -/
structure LocationReferencePoint where
  lon : Rat
  lat : Rat
deriving DecidableEq

/-- The external `openlr` line location reference: ordered anchor points
plus positive and negative relative offsets. -/
structure LineLocationReference where
  points : List LocationReferencePoint
  poffs : Rat
  noffs : Rat
deriving DecidableEq

/-- `build_line_location` from `decoding/line_location.py`.  The source
computes `p_off = reference.poffs * path[0].length()` and
`n_off = reference.noffs * path[-1].length()` and then evaluates
`remove_offsets(combine_routes(path, equal_area), p_off, n_off, equal_area)`.
That call passes four positional arguments to the three-parameter
`remove_offsets` of `decoding/path_math.py` and therefore raises `TypeError`
at run time; the model below performs the intended three-argument call.
Indexing an empty `path` is a caller error, modelled by `none`. -/
def build_line_location (path : List Route) (reference : LineLocationReference)
    (equal_area : Bool := false) : Option (Except LRDecodeError LineLocation) :=
  match path with
  | [] => none
  | p0 :: ps =>
    let p_off := reference.poffs * p0.length
    let n_off := reference.noffs * (ps.getLastD p0).length
    match combine_routes (p0 :: ps) equal_area with
    | some combined => some ((remove_offsets combined p_off n_off).map LineLocation.mk)
    | none => none

/-- The functional road class of the external `openlr` package: an ordered
enumeration of 8 classes (spec section 3). -/
abbrev FRC := Fin 8

/-- `DEFAULT_FOW_STAND_IN_SCORE` from `decoding/configuration.py`: the
default value for the `fow_standin_score` config option. -/
def DEFAULT_FOW_STAND_IN_SCORE : List (List Rat) :=
  [ [0.50, 0.50, 0.50, 0.50, 0.50, 0.50, 0.50, 0.5],
    [0.50, 1.00, 0.75, 0.00, 0.00, 0.00, 0.00, 0.0],
    [0.50, 0.75, 1.00, 0.75, 0.50, 0.00, 0.00, 0.0],
    [0.50, 0.00, 0.75, 1.00, 0.50, 0.50, 0.00, 0.0],
    [0.50, 0.00, 0.50, 0.50, 1.00, 0.50, 0.00, 0.0],
    [0.50, 0.00, 0.00, 0.50, 0.50, 1.00, 0.00, 0.0],
    [0.50, 0.00, 0.00, 0.00, 0.00, 0.00, 1.00, 0.0],
    [0.50, 0.00, 0.00, 0.00, 0.00, 0.00, 0.00, 1.0] ]

/-- The `Config` NamedTuple of `decoding/configuration.py`.  Only the
annotated class attributes become NamedTuple fields; `candidate_threshold`
is written without a type annotation in the source and is therefore a plain
class attribute, not a field (see `Config.candidate_threshold` and
`Config.fields`). -/
structure Config where
  search_radius : Rat := 100.0
  max_dnp_deviation : Rat := 0.3
  tolerated_dnp_dev : Int := 30
  min_score : Rat := 0.3
  tolerated_lfrc : FRC → FRC := fun frc => frc
  fow_weight : Rat := 1 / 4
  frc_weight : Rat := 1 / 4
  geo_weight : Rat := 1 / 4
  bear_weight : Rat := 1 / 4
  fow_standin_score : List (List Rat) := DEFAULT_FOW_STAND_IN_SCORE
  bear_dist : Int := 20

/-- `candidate_threshold` in the source is a class attribute of `Config`
(it lacks a type annotation, so the NamedTuple machinery does not turn it
into a field): every instance reads the value 20 and the constructor accepts
no such argument. -/
def Config.candidate_threshold (_ : Config) : Int := 20

/-- The `_fields` tuple of the `Config` NamedTuple: exactly the annotated
attributes, in source order.  These are the keyword arguments the `Config`
constructor accepts. -/
def Config.fields : List String :=
  [ "search_radius", "max_dnp_deviation", "tolerated_dnp_dev", "min_score",
    "tolerated_lfrc", "fow_weight", "frc_weight", "geo_weight", "bear_weight",
    "fow_standin_score", "bear_dist" ]

/-- `DEFAULT_CONFIG = Config()` from `decoding/configuration.py`. -/
def DEFAULT_CONFIG : Config := {}

/-- Python's float modulo for a positive modulus: `x % m = x - m * floor (x / m)`,
always landing in `[0, m)`.  Used to model `degrees(bear) % 360`. -/
def pymod (x m : Rat) : Rat := x - m * ⌊x / m⌋

/-- `line_string_length` from `maps/wgs84.py` (an external collaborator per
the spec): sums the pairwise point distances along a polyline; the
point-to-point great-circle distance `d` is passed in as a parameter. -/
def line_string_length (d : Coordinates → Coordinates → Rat) : List Coordinates → Rat
  | a :: b :: rest => d a b + line_string_length d (b :: rest)
  | _ => 0

/-- `project` from `decoding/path_math.py`: computes the nearest point to
`coord` on `line` and converts the parametric fraction delivered by the
geometry library into the arc-length (meters) fraction.  The external
collaborators are parameters: `d` is the great-circle point distance,
`geometry_project line.geometry coord` is shapely's normalized `project`
(the parametric fraction of the closest point), and
`substring line.geometry fraction` is shapely's normalized `substring`
from parametric position 0 to `fraction`. -/
def project (d : Coordinates → Coordinates → Rat)
    (geometry_project : List Coordinates → Coordinates → Rat)
    (substring : List Coordinates → Rat → List Coordinates)
    (line : Line) (coord : Coordinates) : PointOnLine :=
  let fraction := geometry_project line.geometry coord
  let to_projection_point := substring line.geometry fraction
  let meters_to_projection_point := line_string_length d to_projection_point
  let geometry_length := line_string_length d line.geometry
  let length_fraction := meters_to_projection_point / geometry_length
  PointOnLine.mk line length_fraction

/-- `compute_bearing` from `decoding/path_math.py`: the bearing angle of a
partial line in degrees in the range 0.0 .. 360.0.  The external
collaborators are parameters: `cut` performs the geometric split of
`candidate.split()`, `interpolate` walks `bear_dist` meters along a
polyline (`maps/wgs84.py`), and `bear_deg c0 c1` stands for
`degrees(bearing(c0, c1))`. -/
def compute_bearing
    (cut : List Coordinates → Rat → List Coordinates × List Coordinates)
    (interpolate : List Coordinates → Rat → Coordinates)
    (bear_deg : Coordinates → Coordinates → Rat)
    (_lrp : LocationReferencePoint) (candidate : PointOnLine)
    (is_last_lrp : Bool) (bear_dist : Rat) : Rat :=
  let split := candidate.split cut
  if is_last_lrp then
    match split.1 with
    | none => 0
    | some line1 =>
      let coordinates := line1.reverse
      let bearing_point := interpolate coordinates bear_dist
      pymod (bear_deg (coordinates.headD ⟨0, 0⟩) bearing_point) 360
  else
    match split.2 with
    | none => 0
    | some line2 =>
      let coordinates := line2
      let bearing_point := interpolate coordinates bear_dist
      pymod (bear_deg (coordinates.headD ⟨0, 0⟩) bearing_point) 360

/-- Modelled from the spec: `decoding/candidate.py` is missing from the
source snapshot; a candidate is a point-on-line with a score (spec
section 3 "Candidate"). -/
structure Candidate where
  point : PointOnLine
  score : Rat
deriving DecidableEq

/-- The `AttemptedRoute` NamedTuple of `observer/simple_observer.py`: an
attempted route between two LRPs. -/
structure AttemptedRoute where
  from_lrp : LocationReferencePoint
  to_lrp : LocationReferencePoint
  from_line : Line
  to_line : Line
  success : Bool
  path : Option (List Line)
  reason : Option String
deriving DecidableEq

/-- The `AttemptedMatch` NamedTuple of `observer/simple_observer.py`: an
attempted try to resolve a pair of two LRPs. -/
structure AttemptedMatch where
  from_lrp : LocationReferencePoint
  to_lrp : LocationReferencePoint
  from_candidate : List Candidate
  to_candidate : List Candidate
  reason : Option String
deriving DecidableEq

/-- The mutable state of a `SimpleObserver` (`observer/simple_observer.py`);
the Python dict `candidates` is modelled as an association list in insertion
order. -/
structure SimpleObserver where
  candidates : List (LocationReferencePoint × List Candidate)
  failed_candidates : List (LocationReferencePoint × Candidate × String)
  attempted_routes : List AttemptedRoute
  failed_matches : List AttemptedMatch
deriving DecidableEq

/-- `SimpleObserver.__init__`: all collections start empty. -/
def SimpleObserver.init : SimpleObserver := ⟨[], [], [], []⟩

/-- `SimpleObserver.on_candidate_found`: start a new candidate list for an
unseen LRP, else append to the existing one. -/
def SimpleObserver.on_candidate_found (o : SimpleObserver)
    (lrp : LocationReferencePoint) (candidate : Candidate) : SimpleObserver :=
  if o.candidates.any (fun kv => kv.1 == lrp) then
    { o with candidates :=
        o.candidates.map (fun kv => if kv.1 = lrp then (kv.1, kv.2 ++ [candidate]) else kv) }
  else
    { o with candidates := o.candidates ++ [(lrp, [candidate])] }

/-- `SimpleObserver.on_candidate_rejected`. -/
def SimpleObserver.on_candidate_rejected (o : SimpleObserver)
    (lrp : LocationReferencePoint) (candidate : Candidate) (reason : String) :
    SimpleObserver :=
  { o with failed_candidates := o.failed_candidates ++ [(lrp, candidate, reason)] }

/-- `SimpleObserver.on_route_fail`: record an `AttemptedRoute` with
`success = False`, no path, and the given reason. -/
def SimpleObserver.on_route_fail (o : SimpleObserver)
    (from_lrp to_lrp : LocationReferencePoint) (from_line to_line : Line)
    (reason : String) : SimpleObserver :=
  { o with attempted_routes :=
      o.attempted_routes ++ [⟨from_lrp, to_lrp, from_line, to_line, false, none, some reason⟩] }

/-- `SimpleObserver.on_route_success`: record an `AttemptedRoute` with
`success = True`, the reported path, and no reason. -/
def SimpleObserver.on_route_success (o : SimpleObserver)
    (from_lrp to_lrp : LocationReferencePoint) (from_line to_line : Line)
    (path : List Line) : SimpleObserver :=
  { o with attempted_routes :=
      o.attempted_routes ++ [⟨from_lrp, to_lrp, from_line, to_line, true, some path, none⟩] }

/-- `SimpleObserver.on_matching_fail`. -/
def SimpleObserver.on_matching_fail (o : SimpleObserver)
    (from_lrp to_lrp : LocationReferencePoint)
    (from_candidates to_candidates : List Candidate) (reason : String) :
    SimpleObserver :=
  { o with failed_matches :=
      o.failed_matches ++ [⟨from_lrp, to_lrp, from_candidates, to_candidates, some reason⟩] }

/-- One callback invocation on a `SimpleObserver`. -/
inductive ObserverEvent where
  | candidateFound (lrp : LocationReferencePoint) (candidate : Candidate)
  | candidateRejected (lrp : LocationReferencePoint) (candidate : Candidate) (reason : String)
  | routeSuccess (from_lrp to_lrp : LocationReferencePoint) (from_line to_line : Line)
      (path : List Line)
  | routeFail (from_lrp to_lrp : LocationReferencePoint) (from_line to_line : Line)
      (reason : String)
  | matchingFail (from_lrp to_lrp : LocationReferencePoint)
      (from_candidates to_candidates : List Candidate) (reason : String)
deriving DecidableEq

/-- Dispatch one callback invocation to the corresponding method. -/
def SimpleObserver.step (o : SimpleObserver) : ObserverEvent → SimpleObserver
  | .candidateFound lrp c => o.on_candidate_found lrp c
  | .candidateRejected lrp c reason => o.on_candidate_rejected lrp c reason
  | .routeSuccess f t fl tl path => o.on_route_success f t fl tl path
  | .routeFail f t fl tl reason => o.on_route_fail f t fl tl reason
  | .matchingFail f t fc tc reason => o.on_matching_fail f t fc tc reason

/-- Run a sequence of callback invocations on a fresh `SimpleObserver`. -/
def SimpleObserver.run (events : List ObserverEvent) : SimpleObserver :=
  events.foldl SimpleObserver.step SimpleObserver.init

/-- Concrete external collaborators and inputs used by witnesses. -/
def witCut : List Coordinates → Rat → List Coordinates × List Coordinates :=
  fun g _ => (g, g)

def witInterpolate : List Coordinates → Rat → Coordinates :=
  fun _ _ => ⟨2, 2⟩

def witBearDeg : Coordinates → Coordinates → Rat :=
  fun _ _ => -45

def witLine : Line := ⟨7, 10, [⟨0, 0⟩, ⟨1, 0⟩]⟩

def witLrp : LocationReferencePoint := ⟨0, 0⟩

/-- A second concrete LRP and a recorded route used by the C10 witness. -/
def witLrpB : LocationReferencePoint := ⟨1, 1⟩

def witAttempted : AttemptedRoute :=
  ⟨witLrp, witLrpB, witLine, witLine, true, some [witLine], none⟩

/-- Concrete lines and routes used by the C1/C2/C3 witnesses and
counterexamples. -/
def lineA : Line := ⟨1, 10, []⟩

def lineB : Line := ⟨2, 10, []⟩

/-- A whole-segment route on `lineA`. -/
def routeA : Route := ⟨⟨lineA, 0⟩, [], ⟨lineA, 1⟩⟩

/-- A whole-segment route on `lineB`. -/
def routeB : Route := ⟨⟨lineB, 0⟩, [], ⟨lineB, 1⟩⟩

/-- A route covering `lineA` then `lineB`. -/
def routeAB : Route := ⟨⟨lineA, 0⟩, [], ⟨lineB, 1⟩⟩

/-- `get_lines` processes the collected list from its tail; this helper is
the same step viewed on the reversed accumulator (most recent line first),
used to reason about the fold. -/
def rev_get_lines_step (racc : List Line) (line : Line) : List Line :=
  match racc with
  | prev :: rest =>
    if prev.line_id = line.line_id then line :: rest
    else line :: prev :: rest
  | [] => [line]

/- ---------------------------------------------------------------------- -/
/- Helper lemmas                                                          -/
/- ---------------------------------------------------------------------- -/

theorem pymod_nonneg (x m : Rat) (hm : 0 < m) : 0 ≤ pymod x m := by
  unfold pymod
  have h : (⌊x / m⌋ : Rat) ≤ x / m := Int.floor_le (x / m)
  have h2 : (⌊x / m⌋ : Rat) * m ≤ (x / m) * m :=
    mul_le_mul_of_nonneg_right h (le_of_lt hm)
  rw [div_mul_cancel₀ x (ne_of_gt hm)] at h2
  linarith

theorem pymod_lt (x m : Rat) (hm : 0 < m) : pymod x m < m := by
  unfold pymod
  have h : x / m < (⌊x / m⌋ : Rat) + 1 := Int.lt_floor_add_one (x / m)
  have h2 : (x / m) * m < ((⌊x / m⌋ : Rat) + 1) * m :=
    mul_lt_mul_of_pos_right h hm
  rw [div_mul_cancel₀ x (ne_of_gt hm)] at h2
  linarith

theorem line_string_length_nonneg (d : Coordinates → Coordinates → Rat)
    (hd : ∀ p q, 0 ≤ d p q) : ∀ g, 0 ≤ line_string_length d g
  | [] => le_of_eq rfl
  | [_] => le_of_eq rfl
  | a :: b :: rest => by
    have ih := line_string_length_nonneg d hd (b :: rest)
    unfold line_string_length
    exact add_nonneg (hd a b) ih

/- ---------------------------------------------------------------------- -/
/- Claim theorems                                                         -/
/- ---------------------------------------------------------------------- -/

/-- Claim C4: in the default FOW stand-in score matrix
`DEFAULT_FOW_STAND_IN_SCORE`, every diagonal entry `[i][i]` for `i` in 1..7
equals 1.0, the entry `[0][0]` equals 0.5, and every entry of row 0 and of
column 0 equals 0.5. -/
theorem default_fow_stand_in_score_shape :
    (∀ i : Fin 8,
      (DEFAULT_FOW_STAND_IN_SCORE.getD i.val []).getD i.val 0
        = if i.val = 0 then 1/2 else 1) ∧
    (∀ j : Fin 8,
      (DEFAULT_FOW_STAND_IN_SCORE.getD 0 []).getD j.val 0 = 1/2 ∧
      (DEFAULT_FOW_STAND_IN_SCORE.getD j.val []).getD 0 0 = 1/2) := by
  constructor
  · intro i
    fin_cases i <;> norm_num [DEFAULT_FOW_STAND_IN_SCORE]
  · intro j
    fin_cases j <;> constructor <;> norm_num [DEFAULT_FOW_STAND_IN_SCORE]

/-- Claim C5, counterexample: `candidate_threshold` is not among the
NamedTuple fields of `Config`, so — unlike the other listed options — it
cannot be overridden when constructing a `Config`; it is a class attribute
that always reads 20. -/
theorem candidate_threshold_override_counterexample :
    "candidate_threshold" ∉ Config.fields ∧
    DEFAULT_CONFIG.candidate_threshold = 20 := by
  exact ⟨by decide, rfl⟩

/-- Claim C5, amended: `candidate_threshold` is exposed on `Config` with
value 20 (meters), but as a plain class attribute rather than a NamedTuple
field: every `Config` instance reads 20, and `candidate_threshold` is not
among the constructor-accepted fields, while the other listed options such
as `search_radius` are. -/
theorem candidate_threshold_class_attribute :
    DEFAULT_CONFIG.candidate_threshold = 20 ∧
    (∀ c : Config, c.candidate_threshold = 20) ∧
    "candidate_threshold" ∉ Config.fields ∧
    "search_radius" ∈ Config.fields := by
  exact ⟨rfl, fun _ => rfl, by decide, by decide⟩

/-- Claim C6: the default configuration has `search_radius = 100.0`,
`max_dnp_deviation = 0.3`, `tolerated_dnp_dev = 30`, `min_score = 0.3`,
all four score weights equal to 0.25, `bear_dist = 20`, and
`tolerated_lfrc` the identity map on FRC. -/
theorem default_config_values :
    DEFAULT_CONFIG.search_radius = 100 ∧
    DEFAULT_CONFIG.max_dnp_deviation = 3/10 ∧
    DEFAULT_CONFIG.tolerated_dnp_dev = 30 ∧
    DEFAULT_CONFIG.min_score = 3/10 ∧
    DEFAULT_CONFIG.fow_weight = 1/4 ∧
    DEFAULT_CONFIG.frc_weight = 1/4 ∧
    DEFAULT_CONFIG.geo_weight = 1/4 ∧
    DEFAULT_CONFIG.bear_weight = 1/4 ∧
    DEFAULT_CONFIG.bear_dist = 20 ∧
    ∀ f : FRC, DEFAULT_CONFIG.tolerated_lfrc f = f := by
  refine ⟨?_, ?_, rfl, ?_, rfl, rfl, rfl, rfl, rfl, fun f => rfl⟩ <;>
    norm_num [DEFAULT_CONFIG]

/-- Claim C7: for a line of positive total arc length, `project` returns a
`PointOnLine` on that line whose fraction is the arc length in meters from
the line's start to the projection point divided by the line's total arc
length, and this fraction lies in [0, 1].  The external geodesy
collaborators enter as parameters with their contracts: point distances are
nonnegative and the projected prefix polyline is at most as long as the
whole geometry. -/
theorem project_length_fraction
    (d : Coordinates → Coordinates → Rat)
    (geometry_project : List Coordinates → Coordinates → Rat)
    (substring : List Coordinates → Rat → List Coordinates)
    (line : Line) (coord : Coordinates)
    (hd : ∀ p q, 0 ≤ d p q)
    (htotal : 0 < line_string_length d line.geometry)
    (hsub_le :
      line_string_length d (substring line.geometry (geometry_project line.geometry coord))
        ≤ line_string_length d line.geometry) :
    (project d geometry_project substring line coord).line = line ∧
    (project d geometry_project substring line coord).relative_offset
      = line_string_length d (substring line.geometry (geometry_project line.geometry coord))
        / line_string_length d line.geometry ∧
    0 ≤ (project d geometry_project substring line coord).relative_offset ∧
    (project d geometry_project substring line coord).relative_offset ≤ 1 := by
  refine ⟨rfl, rfl, ?_, ?_⟩
  · exact div_nonneg (line_string_length_nonneg d hd _) (le_of_lt htotal)
  · exact (div_le_one htotal).mpr hsub_le

/-- Witness for claim C7 at a concrete instantiation: a two-point geometry
of unit distance, with the substring collaborator returning the empty
prefix polyline. -/
theorem project_length_fraction_witness :
    (project (fun _ _ => 1) (fun _ _ => 0) (fun _ _ => []) witLine ⟨0, 0⟩).line = witLine ∧
    (project (fun _ _ => 1) (fun _ _ => 0) (fun _ _ => []) witLine ⟨0, 0⟩).relative_offset
      = line_string_length (fun _ _ => 1) [] / line_string_length (fun _ _ => 1) witLine.geometry ∧
    0 ≤ (project (fun _ _ => 1) (fun _ _ => 0) (fun _ _ => []) witLine ⟨0, 0⟩).relative_offset ∧
    (project (fun _ _ => 1) (fun _ _ => 0) (fun _ _ => []) witLine ⟨0, 0⟩).relative_offset ≤ 1 :=
  project_length_fraction (fun _ _ => 1) (fun _ _ => 0) (fun _ _ => []) witLine ⟨0, 0⟩
    (fun _ _ => le_of_lt one_pos) (by norm_num [witLine, line_string_length])
    (by norm_num [witLine, line_string_length])

/-- Claim C8: `compute_bearing` returns exactly 0.0 in the degenerate
boundary cases — last LRP with the candidate at the start of its line, and
non-last LRP with the candidate at the end of its line — and in all other
cases the returned value lies in [0, 360). -/
theorem compute_bearing_degenerate_and_range
    (cut : List Coordinates → Rat → List Coordinates × List Coordinates)
    (interpolate : List Coordinates → Rat → Coordinates)
    (bear_deg : Coordinates → Coordinates → Rat)
    (lrp : LocationReferencePoint) (candidate : PointOnLine)
    (is_last_lrp : Bool) (bear_dist : Rat) :
    (is_last_lrp = true → candidate.relative_offset = 0 →
      compute_bearing cut interpolate bear_deg lrp candidate is_last_lrp bear_dist = 0) ∧
    (is_last_lrp = false → candidate.relative_offset = 1 →
      compute_bearing cut interpolate bear_deg lrp candidate is_last_lrp bear_dist = 0) ∧
    (¬(is_last_lrp = true ∧ candidate.relative_offset = 0) →
     ¬(is_last_lrp = false ∧ candidate.relative_offset = 1) →
      0 ≤ compute_bearing cut interpolate bear_deg lrp candidate is_last_lrp bear_dist ∧
      compute_bearing cut interpolate bear_deg lrp candidate is_last_lrp bear_dist < 360) := by
  have h360 : (0 : Rat) < 360 := by norm_num
  refine ⟨?_, ?_, ?_⟩
  · intro hlast h0
    simp [compute_bearing, PointOnLine.split, hlast, h0]
  · intro hlast h1
    have h0 : ¬ candidate.relative_offset = 0 := by rw [h1]; norm_num
    simp [compute_bearing, PointOnLine.split, hlast, h0, h1]
  · intro hnot1 hnot2
    cases is_last_lrp with
    | true =>
      have h0 : ¬ candidate.relative_offset = 0 := fun h => hnot1 ⟨rfl, h⟩
      by_cases h1 : candidate.relative_offset = 1 <;>
        · simp [compute_bearing, PointOnLine.split, h0, h1]
          exact ⟨pymod_nonneg _ _ h360, pymod_lt _ _ h360⟩
    | false =>
      have h1 : ¬ candidate.relative_offset = 1 := fun h => hnot2 ⟨rfl, h⟩
      by_cases h0 : candidate.relative_offset = 0 <;>
        · simp [compute_bearing, PointOnLine.split, h0, h1]
          exact ⟨pymod_nonneg _ _ h360, pymod_lt _ _ h360⟩

/-- Witness for claim C8 at concrete inputs: the degenerate last-LRP case
returns 0, and a non-degenerate case lands in [0, 360). -/
theorem compute_bearing_degenerate_and_range_witness :
    compute_bearing witCut witInterpolate witBearDeg witLrp ⟨witLine, 0⟩ true 20 = 0 ∧
    (0 ≤ compute_bearing witCut witInterpolate witBearDeg witLrp ⟨witLine, 0⟩ false 20 ∧
     compute_bearing witCut witInterpolate witBearDeg witLrp ⟨witLine, 0⟩ false 20 < 360) :=
  ⟨(compute_bearing_degenerate_and_range witCut witInterpolate witBearDeg witLrp
      ⟨witLine, 0⟩ true 20).1 rfl rfl,
   (compute_bearing_degenerate_and_range witCut witInterpolate witBearDeg witLrp
      ⟨witLine, 0⟩ false 20).2.2 (by norm_num) (by norm_num)⟩

/-- `on_candidate_found` does not touch the attempted-routes record. -/
theorem on_candidate_found_attempted_routes (o : SimpleObserver)
    (lrp : LocationReferencePoint) (c : Candidate) :
    (o.on_candidate_found lrp c).attempted_routes = o.attempted_routes := by
  unfold SimpleObserver.on_candidate_found
  split <;> rfl

/-- The invariant of claim C10, preserved by any sequence of callback
invocations starting from any observer state already satisfying it. -/
theorem simple_observer_foldl_invariant (events : List ObserverEvent) :
    ∀ (o : SimpleObserver),
      (∀ ar ∈ o.attempted_routes,
        (ar.success = true ↔ ar.reason = none) ∧ (ar.success = true ↔ ar.path ≠ none)) →
      ∀ ar ∈ (events.foldl SimpleObserver.step o).attempted_routes,
        (ar.success = true ↔ ar.reason = none) ∧ (ar.success = true ↔ ar.path ≠ none) := by
  induction events with
  | nil => exact fun o h => h
  | cons e es ih =>
    intro o h
    refine ih _ ?_
    intro ar har
    cases e with
    | candidateFound lrp c =>
      rw [SimpleObserver.step, on_candidate_found_attempted_routes] at har
      exact h ar har
    | candidateRejected lrp c reason =>
      exact h ar har
    | routeSuccess f t fl tl path =>
      rw [SimpleObserver.step] at har
      rcases List.mem_append.mp har with hmem | hnew
      · exact h ar hmem
      · rw [List.mem_singleton.mp hnew]
        exact ⟨by simp, by simp⟩
    | routeFail f t fl tl reason =>
      rw [SimpleObserver.step] at har
      rcases List.mem_append.mp har with hmem | hnew
      · exact h ar hmem
      · rw [List.mem_singleton.mp hnew]
        exact ⟨by simp, by simp⟩
    | matchingFail f t fc tc reason =>
      exact h ar har

/-- Claim C10: `on_route_success` appends exactly one `AttemptedRoute` with
`success = True`, the reported path and no reason; `on_route_fail` appends
exactly one with `success = False`, no path and the given reason;
previously recorded entries are preserved, so after any sequence of
callback invocations every recorded `AttemptedRoute` satisfies
`success = True` iff its reason is `None`, and `success = True` iff its
path is not `None`. -/
theorem simple_observer_attempted_routes :
    (∀ (o : SimpleObserver) (f t : LocationReferencePoint) (fl tl : Line) (path : List Line),
      (o.on_route_success f t fl tl path).attempted_routes
        = o.attempted_routes ++ [⟨f, t, fl, tl, true, some path, none⟩]) ∧
    (∀ (o : SimpleObserver) (f t : LocationReferencePoint) (fl tl : Line) (reason : String),
      (o.on_route_fail f t fl tl reason).attempted_routes
        = o.attempted_routes ++ [⟨f, t, fl, tl, false, none, some reason⟩]) ∧
    (∀ (events : List ObserverEvent),
      ∀ ar ∈ (SimpleObserver.run events).attempted_routes,
        (ar.success = true ↔ ar.reason = none) ∧ (ar.success = true ↔ ar.path ≠ none)) := by
  refine ⟨fun _ _ _ _ _ _ => rfl, fun _ _ _ _ _ _ => rfl, fun events => ?_⟩
  exact simple_observer_foldl_invariant events SimpleObserver.init (by simp [SimpleObserver.init])

/-- Witness for claim C10: after a single `on_route_success` invocation the
recorded entry satisfies the success/reason/path correspondence. -/
theorem simple_observer_attempted_routes_witness :
    (witAttempted.success = true ↔ witAttempted.reason = none) ∧
    (witAttempted.success = true ↔ witAttempted.path ≠ none) :=
  simple_observer_attempted_routes.2.2
    [.routeSuccess witLrp witLrpB witLine witLine [witLine]] witAttempted
    (by simp [SimpleObserver.run, SimpleObserver.step, SimpleObserver.on_route_success,
              SimpleObserver.init, witAttempted])

/- ---------------------------------------------------------------------- -/
/- get_lines machinery                                                    -/
/- ---------------------------------------------------------------------- -/

instance : DecidableRel (fun a b : Line => a.line_id ≠ b.line_id) :=
  fun a b => inferInstanceAs (Decidable (a.line_id ≠ b.line_id))

theorem rev_get_lines_step_ne_nil (racc : List Line) (x : Line) :
    rev_get_lines_step racc x ≠ [] := by
  unfold rev_get_lines_step
  rcases racc with _ | ⟨p, rest⟩
  · simp
  · by_cases h : p.line_id = x.line_id <;> simp [h]

theorem rev_get_lines_step_head? (racc : List Line) (x : Line) :
    (rev_get_lines_step racc x).head? = some x := by
  unfold rev_get_lines_step
  rcases racc with _ | ⟨p, rest⟩
  · simp
  · by_cases h : p.line_id = x.line_id <;> simp [h]

theorem get_lines_step_rev (acc : List Line) (x : Line) :
    get_lines_step acc x = (rev_get_lines_step acc.reverse x).reverse := by
  rcases h : acc.reverse with _ | ⟨p, rest⟩
  · have hacc : acc = [] := by
      have h2 := congrArg List.reverse h
      rwa [List.reverse_reverse] at h2
    subst hacc
    rfl
  · have hacc : acc = rest.reverse ++ [p] := by
      have h2 := congrArg List.reverse h
      rw [List.reverse_reverse] at h2
      simp [h2]
    subst hacc
    by_cases hid : p.line_id = x.line_id
    · simp [get_lines_step, rev_get_lines_step, List.getLast?_concat, hid,
        List.dropLast_concat]
    · simp [get_lines_step, rev_get_lines_step, List.getLast?_concat, hid]

theorem foldl_get_lines_step_rev (xs : List Line) :
    ∀ acc, List.foldl get_lines_step acc xs
      = (List.foldl rev_get_lines_step acc.reverse xs).reverse := by
  induction xs with
  | nil => intro acc; simp
  | cons x xs ih =>
    intro acc
    rw [List.foldl_cons, List.foldl_cons, ih, get_lines_step_rev, List.reverse_reverse]

theorem foldl_get_lines_step_flatten (Ls : List (List Line)) :
    ∀ acc, Ls.foldl (fun r l => l.foldl get_lines_step r) acc
      = Ls.flatten.foldl get_lines_step acc := by
  induction Ls with
  | nil => intro acc; rfl
  | cons l Ls ih =>
    intro acc
    rw [List.foldl_cons, ih, List.flatten_cons, List.foldl_append]

theorem get_lines_eq_foldl_flatten (parts : List Route) :
    get_lines parts
      = List.foldl get_lines_step [] ((parts.map Route.lines).flatten) := by
  rw [get_lines, ← foldl_get_lines_step_flatten, List.foldl_map]

theorem rev_foldl_head? (xs : List Line) (hxs : xs ≠ []) :
    ∀ racc, (List.foldl rev_get_lines_step racc xs).head? = xs.getLast? := by
  induction xs with
  | nil => exact absurd rfl hxs
  | cons x xs ih =>
    intro racc
    rcases xs with _ | ⟨y, ys⟩
    · rw [List.foldl_cons, List.foldl_nil, rev_get_lines_step_head?]
      rfl
    · rw [List.foldl_cons, ih (by simp), List.getLast?_cons_cons]

theorem rev_foldl_ne_nil (xs : List Line) :
    ∀ racc, racc ≠ [] → List.foldl rev_get_lines_step racc xs ≠ [] := by
  induction xs with
  | nil => exact fun racc h => h
  | cons x xs ih =>
    intro racc _
    rw [List.foldl_cons]
    exact ih _ (rev_get_lines_step_ne_nil racc x)

theorem rev_get_lines_step_chain' (racc : List Line) (x : Line)
    (h : List.Chain' (fun a b => a.line_id ≠ b.line_id) racc) :
    List.Chain' (fun a b => a.line_id ≠ b.line_id) (rev_get_lines_step racc x) := by
  rcases racc with _ | ⟨p, rest⟩
  · simp [rev_get_lines_step]
  · simp only [rev_get_lines_step]
    by_cases hid : p.line_id = x.line_id
    · rw [if_pos hid]
      rcases rest with _ | ⟨q, rest'⟩
      · simp
      · rw [List.chain'_cons] at h ⊢
        exact ⟨hid ▸ h.1, h.2⟩
    · rw [if_neg hid, List.chain'_cons]
      exact ⟨fun hxp => hid hxp.symm, h⟩

theorem rev_foldl_chain' (xs : List Line) :
    ∀ racc, List.Chain' (fun a b => a.line_id ≠ b.line_id) racc →
      List.Chain' (fun a b => a.line_id ≠ b.line_id)
        (List.foldl rev_get_lines_step racc xs) := by
  induction xs with
  | nil => exact fun racc h => h
  | cons x xs ih =>
    intro racc h
    rw [List.foldl_cons]
    exact ih _ (rev_get_lines_step_chain' racc x h)

theorem Route.lines_ne_nil (r : Route) : r.lines ≠ [] := by
  unfold Route.lines
  split <;> simp

theorem Route.lines_head? (r : Route) : r.lines.head? = some r.start.line := by
  unfold Route.lines
  split <;> simp

theorem Route.lines_getLast? (r : Route)
    (h : r.start.line.line_id = r.«end».line.line_id → r.start.line = r.«end».line) :
    r.lines.getLast? = some r.«end».line := by
  unfold Route.lines
  split
  · next hcond =>
    rw [h hcond.2]
    rfl
  · next hcond =>
    rw [show r.start.line :: (r.interior ++ [r.«end».line])
          = (r.start.line :: r.interior) ++ [r.«end».line] by simp]
    exact List.getLast?_concat _

theorem flat_ne_nil (p0 : Route) (ps : List Route) :
    ((p0 :: ps).map Route.lines).flatten ≠ [] := by
  rw [List.map_cons, List.flatten_cons]
  exact List.append_ne_nil_of_left_ne_nil (Route.lines_ne_nil p0) _

theorem flat_head? (p0 : Route) (ps : List Route) :
    (((p0 :: ps).map Route.lines).flatten).head? = some p0.start.line := by
  rw [List.map_cons, List.flatten_cons,
    List.head?_append_of_ne_nil _ (Route.lines_ne_nil p0)]
  exact Route.lines_head? p0

theorem flat_getLast? (ps : List Route) :
    ∀ p0 : Route, (((p0 :: ps).map Route.lines).flatten).getLast?
      = ((ps.getLastD p0).lines).getLast? := by
  induction ps with
  | nil => intro p0; simp
  | cons p1 ps' ih =>
    intro p0
    rw [List.map_cons, List.flatten_cons,
      List.getLast?_append_of_ne_nil _ (flat_ne_nil p1 ps'), ih p1, List.getLastD_cons]

theorem destutter'_line_head? (xs : List Line) :
    ∀ a : Line,
      (List.destutter' (fun u v => u.line_id ≠ v.line_id) a xs).head? = some a := by
  induction xs with
  | nil => intro a; rfl
  | cons b xs ih =>
    intro a
    rw [List.destutter'_cons]
    split
    · rfl
    · exact ih a

theorem rev_foldl_destutter (xs : List Line) :
    ∀ (a : Line) (rest : List Line),
      (∀ u v, u ∈ a :: xs → v ∈ a :: xs → u.line_id = v.line_id → u = v) →
      (List.foldl rev_get_lines_step (a :: rest) xs).reverse
        = rest.reverse ++ List.destutter' (fun u v => u.line_id ≠ v.line_id) a xs := by
  induction xs with
  | nil =>
    intro a rest _
    simp
  | cons x xs ih =>
    intro a rest hinj
    rw [List.foldl_cons, List.destutter'_cons]
    by_cases hid : a.line_id = x.line_id
    · have hax : a = x := hinj a x (by simp) (by simp) hid
      rw [show rev_get_lines_step (a :: rest) x = x :: rest by
        simp [rev_get_lines_step, hid]]
      rw [ih x rest (fun u v hu hv he => hinj u v
        (by simp only [List.mem_cons] at hu ⊢; tauto)
        (by simp only [List.mem_cons] at hv ⊢; tauto) he)]
      rw [if_neg (by simpa using hid), hax]
    · rw [show rev_get_lines_step (a :: rest) x = x :: a :: rest by
        simp [rev_get_lines_step, hid]]
      rw [ih x (a :: rest) (fun u v hu hv he => hinj u v
        (by simp only [List.mem_cons] at hu ⊢; tauto)
        (by simp only [List.mem_cons] at hv ⊢; tauto) he)]
      rw [if_pos hid]
      simp

theorem get_lines_eq_destutter (parts : List Route)
    (hinj : ∀ u v, u ∈ (parts.map Route.lines).flatten →
      v ∈ (parts.map Route.lines).flatten → u.line_id = v.line_id → u = v) :
    get_lines parts
      = List.destutter (fun u v => u.line_id ≠ v.line_id)
          ((parts.map Route.lines).flatten) := by
  rcases hflat : (parts.map Route.lines).flatten with _ | ⟨a, xs⟩
  · rw [get_lines_eq_foldl_flatten, hflat]
    rfl
  · rw [get_lines_eq_foldl_flatten, hflat, foldl_get_lines_step_rev, List.reverse_nil,
      List.foldl_cons]
    rw [show rev_get_lines_step [] a = [a] from rfl]
    rw [rev_foldl_destutter xs a [] (by rw [hflat] at hinj; exact hinj)]
    rfl

theorem get_lines_chain' (parts : List Route) :
    List.Chain' (fun a b => a.line_id ≠ b.line_id) (get_lines parts) := by
  rw [get_lines_eq_foldl_flatten, foldl_get_lines_step_rev, List.reverse_nil,
    List.chain'_reverse]
  exact (rev_foldl_chain' _ [] (by simp)).imp fun a b hab hba => hab hba.symm

theorem get_lines_getLast?_eq_flat (parts : List Route)
    (h : (parts.map Route.lines).flatten ≠ []) :
    (get_lines parts).getLast? = ((parts.map Route.lines).flatten).getLast? := by
  rw [get_lines_eq_foldl_flatten, foldl_get_lines_step_rev, List.reverse_nil,
    List.getLast?_reverse]
  exact rev_foldl_head? _ h []

/-- Claim C9: for every input sequence of routes, the segment list returned
by `get_lines` contains no two consecutive entries with the same line id. -/
theorem get_lines_no_adjacent_duplicates (parts : List Route) :
    List.Chain' (fun a b => a.line_id ≠ b.line_id) (get_lines parts) :=
  get_lines_chain' parts

/-- Claim C3: for a non-empty sequence of consecutive partial routes (with
well-formed routes whose line ids determine the lines), the combined route
built by `combine_routes` starts at the first route's start point, ends at
the last route's end point, and its line sequence is the adjacent-id
deduplication (`List.destutter`) of the concatenated per-route line
sequences — so a boundary segment shared by consecutive routes appears
exactly once. -/
theorem combine_routes_endpoints_and_dedup
    (p0 : Route) (ps : List Route) (ea : Bool)
    (hwf : ∀ r ∈ p0 :: ps, r.WF)
    (hinj : ∀ u v, u ∈ ((p0 :: ps).map Route.lines).flatten →
      v ∈ ((p0 :: ps).map Route.lines).flatten → u.line_id = v.line_id → u = v) :
    ∃ c, combine_routes (p0 :: ps) ea = some c ∧
      c.start = p0.start ∧
      c.«end» = (ps.getLastD p0).«end» ∧
      c.lines = List.destutter (fun u v => u.line_id ≠ v.line_id)
        (((p0 :: ps).map Route.lines).flatten) := by
  have hflatne := flat_ne_nil p0 ps
  have hgl := get_lines_eq_destutter (p0 :: ps) hinj
  have hhead : (get_lines (p0 :: ps)).head? = some p0.start.line := by
    rcases hflat : ((p0 :: ps).map Route.lines).flatten with _ | ⟨a, xs⟩
    · exact absurd hflat hflatne
    · rw [hgl, hflat]
      rw [show List.destutter (fun u v => u.line_id ≠ v.line_id) (a :: xs)
            = List.destutter' (fun u v => u.line_id ≠ v.line_id) a xs from rfl]
      rw [destutter'_line_head? xs a]
      have h2 := flat_head? p0 ps
      rw [hflat] at h2
      simpa using h2
  have hlast : (get_lines (p0 :: ps)).getLast? = some (ps.getLastD p0).«end».line := by
    rw [get_lines_getLast?_eq_flat _ hflatne, flat_getLast? ps p0]
    exact Route.lines_getLast? _ ((hwf _ (List.getLastD_mem_cons ps p0)).2.2.2.2.2.1)
  rcases hgl2 : get_lines (p0 :: ps) with _ | ⟨l0, rest⟩
  · rw [hgl2] at hhead
    simp at hhead
  · have hl0 : l0 = p0.start.line := by
      rw [hgl2] at hhead
      simpa using hhead
    rcases rest with _ | ⟨r1, rs⟩
    · have hl0e : l0 = (ps.getLastD p0).«end».line := by
        rw [hgl2] at hlast
        simpa using hlast
      refine ⟨Route.mk ⟨l0, p0.start.relative_offset⟩ []
          ⟨l0, (ps.getLastD p0).«end».relative_offset⟩, ?_, ?_, ?_, ?_⟩
      · simp [combine_routes, hgl2]
      · show (⟨l0, p0.start.relative_offset⟩ : PointOnLine) = p0.start
        rw [hl0]
      · show (⟨l0, (ps.getLastD p0).«end».relative_offset⟩ : PointOnLine)
          = (ps.getLastD p0).«end»
        rw [hl0e]
      · rw [← hgl, hgl2]
        simp [Route.lines]
    · have hle' : (r1 :: rs).getLast? = some ((r1 :: rs).getLast (by simp)) :=
        List.getLast?_eq_getLast _ _
      have hl0e : (r1 :: rs).getLast (by simp) = (ps.getLastD p0).«end».line := by
        rw [hgl2, List.getLast?_cons_cons, hle'] at hlast
        simpa using hlast
      have hid : l0.line_id ≠ r1.line_id := by
        have hc := get_lines_chain' (p0 :: ps)
        rw [hgl2, List.chain'_cons] at hc
        exact hc.1
      refine ⟨Route.mk ⟨l0, p0.start.relative_offset⟩ ((r1 :: rs).dropLast)
          ⟨(r1 :: rs).getLast (by simp), (ps.getLastD p0).«end».relative_offset⟩,
          ?_, ?_, ?_, ?_⟩
      · simp [combine_routes, hgl2, hle']
      · show (⟨l0, p0.start.relative_offset⟩ : PointOnLine) = p0.start
        rw [hl0]
      · show (⟨(r1 :: rs).getLast (by simp),
            (ps.getLastD p0).«end».relative_offset⟩ : PointOnLine)
          = (ps.getLastD p0).«end»
        rw [hl0e]
      · rw [← hgl, hgl2]
        simp only [Route.lines]
        rw [if_neg]
        · rw [List.dropLast_append_getLast? _ (Option.mem_def.mpr hle')]
        · rintro ⟨hdl, hide⟩
          rcases rs with _ | ⟨r2, rs'⟩
          · exact hid (by simpa using hide)
          · simp at hdl

theorem Route.start_line_mem (r : Route) : r.start.line ∈ r.lines := by
  unfold Route.lines
  split <;> simp

theorem Route.end_line_mem (r : Route)
    (hcoh : r.start.line.line_id = r.«end».line.line_id → r.start.line = r.«end».line) :
    r.«end».line ∈ r.lines := by
  unfold Route.lines
  split
  · next hc => rw [hcoh hc.2]; simp
  · simp

theorem Route.length_eq_sum (r : Route)
    (hcoh : r.start.line.line_id = r.«end».line.line_id → r.start.line = r.«end».line) :
    r.length = (r.lines.map Line.length).sum
      - r.absolute_start_offset - r.absolute_end_offset := by
  unfold Route.length Route.lines Route.absolute_start_offset Route.absolute_end_offset
  split
  · next hc =>
    rw [hcoh hc.2]
    simp
    ring
  · simp
    ring

theorem consume_front_ok_spec :
    ∀ (lines : List Line) (rp rp' : Rat) (lines' : List Line),
      consume_front rp lines = .ok (rp', lines') →
      ∃ pre, lines = pre ++ lines' ∧
        rp' = rp - ((pre.map Line.length).sum) ∧
        (0 ≤ rp → 0 ≤ rp') ∧
        ∃ l t, lines' = l :: t ∧ rp' < l.length := by
  intro lines
  induction lines with
  | nil =>
    intro rp rp' lines' h
    exact absurd h (by simp [consume_front])
  | cons l rest ih =>
    intro rp rp' lines' h
    rw [consume_front] at h
    by_cases hc : l.length ≤ rp
    · rw [if_pos hc] at h
      obtain ⟨pre, h1, h2, h3, hl⟩ := ih _ _ _ h
      refine ⟨l :: pre, by simp [h1], ?_, ?_, hl⟩
      · rw [h2]
        simp
        ring
      · intro _
        exact h3 (by linarith)
    · rw [if_neg hc] at h
      simp only [Except.ok.injEq, Prod.mk.injEq] at h
      obtain ⟨rfl, rfl⟩ := h
      exact ⟨[], by simp, by simp, fun hrp => hrp, l, rest, rfl, lt_of_not_le hc⟩

theorem consume_front_isOk :
    ∀ (lines : List Line) (rp : Rat),
      (∀ l ∈ lines, 0 < l.length) → lines ≠ [] →
      rp < (lines.map Line.length).sum →
      ∃ out, consume_front rp lines = .ok out := by
  intro lines
  induction lines with
  | nil => intro rp _ hne _; exact absurd rfl hne
  | cons l rest ih =>
    intro rp hpos _ hlt
    rw [consume_front]
    by_cases hc : l.length ≤ rp
    · rw [if_pos hc]
      rcases rest with _ | ⟨r2, t⟩
      · exfalso
        simp at hlt
        exact absurd hlt (not_lt.mpr hc)
      · refine ih _ (fun x hx => hpos x (by simp [hx])) (by simp) ?_
        simp only [List.map_cons, List.sum_cons] at hlt ⊢
        linarith
    · rw [if_neg hc]
      exact ⟨(rp, l :: rest), rfl⟩

/-- Claim C1, amended: for a well-formed route and nonnegative offsets, if
`p + n < r.length()` then `remove_offsets` succeeds, and whenever it
succeeds the returned route's length is exactly `r.length() − p − n`.  (The
original claim's converse — that `remove_offsets` raises `OffsetsTooLarge`
whenever `p + n ≥ r.length()` — fails; see the counterexample.) -/
theorem remove_offsets_trim (r : Route) (p n : Rat)
    (hwf : r.WF) (hp : 0 ≤ p) (hn : 0 ≤ n) :
    (p + n < r.length → ∃ r', remove_offsets r p n = .ok r') ∧
    (∀ r', remove_offsets r p n = .ok r' → r'.length = r.length - p - n) := by
  obtain ⟨hpos, hs0, hs1, he0, he1, hcoh, hchain⟩ := hwf
  have hlen := Route.length_eq_sum r hcoh
  have haso : 0 ≤ r.absolute_start_offset :=
    mul_nonneg hs0 (le_of_lt (hpos _ (Route.start_line_mem r)))
  have haeo : 0 ≤ r.absolute_end_offset :=
    mul_nonneg (by linarith) (le_of_lt (hpos _ (Route.end_line_mem r hcoh)))
  constructor
  · intro hlt
    have hRP : p + r.absolute_start_offset < (r.lines.map Line.length).sum := by
      linarith
    obtain ⟨⟨rp', L1⟩, h1⟩ :=
      consume_front_isOk r.lines _ hpos (Route.lines_ne_nil r) hRP
    obtain ⟨preP, hsplit1, hrp', hrpnn, l1, t1, hL1, hhead1⟩ :=
      consume_front_ok_spec _ _ _ _ h1
    have hsum1 : (L1.map Line.length).sum
        = (r.lines.map Line.length).sum - (preP.map Line.length).sum := by
      rw [hsplit1]
      simp [List.map_append, List.sum_append]
    have hRN : n + r.absolute_end_offset < (L1.reverse.map Line.length).sum := by
      have hnn := hrpnn (by linarith)
      rw [List.map_reverse, List.sum_reverse, hsum1]
      have hpre : (preP.map Line.length).sum = (p + r.absolute_start_offset) - rp' := by
        linarith [hrp']
      rw [hpre]
      linarith
    obtain ⟨⟨rn', L2r⟩, h2⟩ :=
      consume_front_isOk L1.reverse _
        (fun x hx => hpos x (by
          rw [hsplit1]
          exact List.mem_append_right _ (List.mem_reverse.mp hx)))
        (by rw [hL1]; simp) hRN
    obtain ⟨preN, hsplit2, hrn', hrnn, l2, t2, hL2r, hhead2⟩ :=
      consume_front_ok_spec _ _ _ _ h2
    subst hL2r
    simp only [remove_offsets, Bind.bind, Except.bind, h1, h2]
    rcases hrev : (l2 :: t2).reverse with _ | ⟨s, ss⟩
    · simp at hrev
    · rcases hgl : ss.getLast? with _ | le
      · exact ⟨⟨PointOnLine.from_abs_offset s rp', [],
          PointOnLine.from_abs_offset s (s.length - rn')⟩, by simp only [hgl]⟩
      · exact ⟨⟨PointOnLine.from_abs_offset s rp', ss.dropLast,
          PointOnLine.from_abs_offset le (le.length - rn')⟩, by simp only [hgl]⟩
  · intro r' hok
    rcases h1 : consume_front (p + r.absolute_start_offset) r.lines with e1 | ⟨rp', L1⟩
    · simp [remove_offsets, Bind.bind, Except.bind, h1] at hok
    rcases h2 : consume_front (n + r.absolute_end_offset) L1.reverse with e2 | ⟨rn', L2r⟩
    · simp [remove_offsets, Bind.bind, Except.bind, h1, h2] at hok
    obtain ⟨preP, hsplit1, hrp', hrpnn, l1, t1, hL1, hhead1⟩ :=
      consume_front_ok_spec _ _ _ _ h1
    obtain ⟨preN, hsplit2, hrn', hrnn, l2, t2, hL2r, hhead2⟩ :=
      consume_front_ok_spec _ _ _ _ h2
    subst hL2r
    have hchain1 : List.Chain' (fun a b => a.line_id ≠ b.line_id) L1 := by
      rw [hsplit1] at hchain
      exact (List.chain'_append.mp hchain).2.1
    have hL1eq : L1 = (l2 :: t2).reverse ++ preN.reverse := by
      have h3 := congrArg List.reverse hsplit2
      rwa [List.reverse_reverse, List.reverse_append] at h3
    have hchain2 : List.Chain' (fun a b => a.line_id ≠ b.line_id) (l2 :: t2).reverse := by
      rw [hL1eq] at hchain1
      exact (List.chain'_append.mp hchain1).1
    have hmem1 : ∀ x ∈ L1, x ∈ r.lines := by
      intro x hx
      rw [hsplit1]
      exact List.mem_append_right _ hx
    have hmem2 : ∀ x ∈ l2 :: t2, x ∈ r.lines := by
      intro x hx
      exact hmem1 x (by rw [hL1eq]; exact List.mem_append_left _ (List.mem_reverse.mpr hx))
    have hsum1 : (L1.map Line.length).sum
        = (r.lines.map Line.length).sum - (preP.map Line.length).sum := by
      rw [hsplit1]
      simp [List.map_append, List.sum_append]
    have hsum2 : ((l2 :: t2).map Line.length).sum
        = (L1.map Line.length).sum - (preN.map Line.length).sum := by
      have h4 : (L1.reverse.map Line.length).sum
          = (preN.map Line.length).sum + ((l2 :: t2).map Line.length).sum := by
        rw [hsplit2]
        simp [List.map_append, List.sum_append]
      rw [List.map_reverse, List.sum_reverse] at h4
      linarith
    simp only [remove_offsets, Bind.bind, Except.bind, h1, h2] at hok
    rcases hrev : t2.reverse with _ | ⟨s, ss⟩
    · have ht2 : t2 = [] := by simpa using congrArg List.reverse hrev
      subst ht2
      simp only [List.reverse_cons, List.reverse_nil, List.nil_append,
        List.getLast?_nil, Except.ok.injEq] at hok
      subst hok
      have hl2mem : l2 ∈ r.lines := hmem2 l2 (by simp)
      have hl2pos : 0 < l2.length := hpos l2 hl2mem
      have hlength : (Route.mk (PointOnLine.from_abs_offset l2 rp') []
          (PointOnLine.from_abs_offset l2 (l2.length - rn')) : Route).length
          = l2.length - rn' - rp' := by
        unfold Route.length PointOnLine.from_abs_offset
        rw [if_pos ⟨rfl, rfl⟩, div_sub_div_same, div_mul_cancel₀ _ (ne_of_gt hl2pos)]
      rw [hlength]
      simp only [List.map_cons, List.map_nil, List.sum_cons, List.sum_nil] at hsum2
      linarith [hsum1, hsum2, hrp', hrn', hlen]
    · have ht2 : t2 = ss.reverse ++ [s] := by
        have h5 := congrArg List.reverse hrev
        rwa [List.reverse_reverse, List.reverse_cons] at h5
      simp only [List.reverse_cons, hrev, List.cons_append, List.nil_append,
        List.getLast?_concat, List.dropLast_concat, Except.ok.injEq] at hok
      subst hok
      have hsmem : s ∈ r.lines := by
        refine hmem2 s ?_
        rw [ht2]
        simp
      have hl2mem : l2 ∈ r.lines := hmem2 l2 (by simp)
      have hspos : 0 < s.length := hpos s hsmem
      have hl2pos : 0 < l2.length := hpos l2 hl2mem
      have hchain3 : List.Chain' (fun a b => a.line_id ≠ b.line_id)
          (s :: (ss ++ [l2])) := by
        have h6 : (l2 :: t2).reverse = s :: (ss ++ [l2]) := by
          rw [List.reverse_cons, hrev]
          simp
        rwa [h6] at hchain2
      have hcond : ¬ (ss = [] ∧ s.line_id = l2.line_id) := by
        rintro ⟨hss, hsid⟩
        subst hss
        rw [List.nil_append, List.chain'_cons] at hchain3
        exact hchain3.1 hsid
      have hlength : (Route.mk (PointOnLine.from_abs_offset s rp') ss
          (PointOnLine.from_abs_offset l2 (l2.length - rn')) : Route).length
          = s.length + (ss.map Line.length).sum + l2.length - rn' - rp' := by
        unfold Route.length PointOnLine.from_abs_offset
        rw [if_neg hcond, sub_mul, one_mul, div_mul_cancel₀ _ (ne_of_gt hspos),
          div_mul_cancel₀ _ (ne_of_gt hl2pos)]
        ring
      rw [hlength]
      have hsum3 : ((l2 :: t2).map Line.length).sum
          = s.length + (ss.map Line.length).sum + l2.length := by
        rw [ht2]
        simp [List.map_append, List.sum_append, List.map_reverse, List.sum_reverse]
        ring
      linarith [hsum1, hsum2, hsum3, hrp', hrn', hlen]

/-- Witness for claim C1 (amended) at a concrete input: a 10-meter
single-line route with offsets 2 and 3. -/
theorem remove_offsets_trim_witness :
    ∃ r', remove_offsets routeA 2 3 = .ok r' ∧ r'.length = routeA.length - 2 - 3 := by
  have h := remove_offsets_trim routeA 2 3
    (by refine ⟨?_, ?_, ?_, ?_, ?_, ?_, ?_⟩ <;> norm_num [Route.lines, routeA, lineA])
    (by norm_num) (by norm_num)
  obtain ⟨r', hr'⟩ := h.1 (by norm_num [Route.length, routeA, lineA])
  exact ⟨r', hr', h.2 r' hr'⟩

/-- Claim C1, counterexample: on a 10-meter route with `p = n = 5`, the sum
of the offsets is not smaller than the route length, yet `remove_offsets`
does not raise `OffsetsTooLarge` — it returns a zero-length degenerate
route. -/
theorem remove_offsets_raises_counterexample :
    ¬ ((5 : Rat) + 5 < routeA.length) ∧
    remove_offsets routeA 5 5 = .ok ⟨⟨lineA, 1/2⟩, [], ⟨lineA, 1/2⟩⟩ := by
  constructor
  · norm_num [Route.length, routeA, lineA]
  · norm_num [remove_offsets, consume_front, Route.lines, Route.absolute_start_offset,
      Route.absolute_end_offset, routeA, lineA, PointOnLine.from_abs_offset,
      Bind.bind, Except.bind]

/-- Claim C2, evaluated on the intended three-argument `remove_offsets`
call (the source as written forwards a fourth positional `equal_area`
argument to the three-parameter `remove_offsets`, so every actual call
raises `TypeError` before any trimming happens): on a concrete two-part
path of 10 meters each, with `poffs = 1/4` and `noffs = 1/2`, the absolute
offsets are `poffs × path[0].length() = 5/2` and
`noffs × path[-1].length() = 5`, and the returned location is the combined
route trimmed by exactly those amounts: its length is `20 − 5/2 − 5`. -/
theorem build_line_location_trims :
    build_line_location [routeA, routeB] ⟨[], 1/4, 1/2⟩ false
      = some (.ok ⟨⟨⟨lineA, 1/4⟩, [], ⟨lineB, 1/2⟩⟩⟩) ∧
    (1 / 4 : Rat) * routeA.length = 5/2 ∧
    (1 / 2 : Rat) * routeB.length = 5 ∧
    ((⟨⟨lineA, 1/4⟩, [], ⟨lineB, 1/2⟩⟩ : Route)).length = (20 : Rat) - 5/2 - 5 := by
  refine ⟨?_, ?_, ?_, ?_⟩
  · norm_num [build_line_location, combine_routes, get_lines, get_lines_step,
      Route.lines, Route.length, remove_offsets, consume_front,
      Route.absolute_start_offset, Route.absolute_end_offset,
      PointOnLine.from_abs_offset, Bind.bind, Except.bind, Except.map,
      routeA, routeB, lineA, lineB]
  · norm_num [Route.length, routeA, lineA]
  · norm_num [Route.length, routeB, lineB]
  · norm_num [Route.length, lineA, lineB]

/-- Witness for claim C3 at a concrete two-part path whose boundary shares
`lineA`: the first part covers `lineA`, the second runs from `lineA` to
`lineB`, and the combined route contains `lineA` once. -/
theorem combine_routes_endpoints_and_dedup_witness :
    ∃ c, combine_routes [routeA, routeAB] false = some c ∧
      c.start = routeA.start ∧
      c.«end» = routeAB.«end» ∧
      c.lines = List.destutter (fun u v => u.line_id ≠ v.line_id)
        (([routeA, routeAB].map Route.lines).flatten) := by
  refine combine_routes_endpoints_and_dedup routeA [routeAB] false ?_ ?_
  · intro r hr
    simp only [List.mem_cons, List.not_mem_nil, or_false] at hr
    rcases hr with rfl | rfl
    · refine ⟨?_, ?_, ?_, ?_, ?_, ?_, ?_⟩ <;> norm_num [Route.lines, routeA, lineA]
    · refine ⟨?_, ?_, ?_, ?_, ?_, ?_, ?_⟩ <;>
        norm_num [Route.lines, routeAB, lineA, lineB]
  · intro u v hu hv he
    simp [routeA, routeAB, Route.lines, lineA, lineB] at hu hv
    rcases hu with hu | hu <;> rcases hv with hv | hv <;> subst hu <;> subst hv <;>
      first | rfl | (exfalso; simp [lineA, lineB] at he)
